import Mathlib

/-!
Shallow embedding of the workout-flow state machine implemented in the
design-exploration prototypes of this repository (the IIFE in
`src/unnamed/part_000`, duplicated with different default constants in
`src/design_exploration/v2/common.js`).

Modelling choices:
* JS numbers that hold user-entered set data (reps, weight) are modelled as
  rationals; the result of `Number(form.field.value)` is an `Option ℚ`, with
  `none` standing for a non-finite parse (NaN/Infinity), which is exactly what
  `Number.isFinite` rejects.
* Progression counters (rank, rankXp, streak, currency, sessionPoints) and the
  configured reward constants are integers.
* Wall-clock values (`Date.now()`, the `at` field of a logged entry) are opaque
  naturals supplied by the event that reads the clock.
* `setInterval`/`clearInterval`: the engine stores at most one interval handle
  (`state.restTimerId`); the model keeps a boolean `restTimerId` recording
  whether a repeating task is currently registered, and a tick of that task is
  an explicit event that is only enabled while `restTimerId` is true.
* DOM rendering, desktop notifications and toast display are out of scope; each
  operation returns the list of toast messages it emits so that claims about
  user-facing notices can be stated.
* A JS `TypeError` thrown by an out-of-range array access aborts the handler
  but keeps every mutation already performed on the shared `state` object; the
  embedding returns the state as mutated up to the faulting access.
-/

/-- One exercise of the workout definition (`workout.exercises[i]`). -/
structure Exercise where
  name : String
  targetReps : Int
  setCount : Nat
  defaultWeight : Int
  restSeconds : Nat
deriving DecidableEq, Repr

/-- Reward constants (`rewards` in the source, with config overrides applied). -/
structure RewardConfig where
  setPoints : Int
  setCurrency : Int
  exercisePoints : Int
  exerciseCurrency : Int
deriving DecidableEq, Repr

/-- Initial progression values (`config.initial` with defaults applied). -/
structure InitialStats where
  rank : Int
  rankXp : Int
  streak : Int
  currency : Int
deriving DecidableEq, Repr

/-- The configuration the engine consumes at construction.  Of the label
strings only `labels.rank` is used by the embedded operations (in the level-up
toast); the other labels appear only in rendering, which is out of scope. -/
structure Config where
  exercises : List Exercise
  rewards : RewardConfig
  initial : InitialStats
  rankLabel : String
deriving DecidableEq, Repr

/-- The `state.screen` values. -/
inductive Screen where
  | main
  | circuit
  | progress
  | input
  | rest
  | complete
deriving DecidableEq, Repr

/-- One logged set (`state.entries[idx]` elements).  The source field `at`
(a wall-clock time string) is modelled as the opaque natural `atTime`. -/
structure SetEntry where
  set : Nat
  reps : ℚ
  weight : ℚ
  atTime : Nat
deriving DecidableEq, Repr

/-- The draft shown in the input form (`state.currentInput`). -/
structure InputDraft where
  reps : String
  weight : String
deriving DecidableEq, Repr

/-- The mutable session state (`state` in the source). -/
structure SessionState where
  screen : Screen
  startedAt : Option Nat
  selectedExercise : Option Nat
  completedSets : List Nat
  entries : List (List SetEntry)
  currentInput : InputDraft
  restRemaining : Nat
  restTimerStarted : Bool
  restTimerId : Bool
  inputSubmitted : Bool
  rank : Int
  rankXp : Int
  streak : Int
  currency : Int
  sessionPoints : Int
deriving DecidableEq, Repr

/-- The state built at engine construction (lines 37-53 of the source):
`Array(n).fill(0)`, `Array.from(.., () => [])`, counters from `config.initial`. -/
def initState (cfg : Config) : SessionState where
  screen := .main
  startedAt := none
  selectedExercise := none
  completedSets := List.replicate cfg.exercises.length 0
  entries := List.replicate cfg.exercises.length []
  currentInput := ⟨"", ""⟩
  restRemaining := 0
  restTimerStarted := false
  restTimerId := false
  inputSubmitted := false
  rank := cfg.initial.rank
  rankXp := cfg.initial.rankXp
  streak := cfg.initial.streak
  currency := cfg.initial.currency
  sessionPoints := 0

/-- `exerciseByIndex`: plain array access, `undefined` becomes `none`. -/
def exerciseByIndex (cfg : Config) (i : Nat) : Option Exercise :=
  cfg.exercises[i]?

/-- `lockedExerciseIndex`: the selected exercise while it still has sets left. -/
def lockedExerciseIndex (cfg : Config) (s : SessionState) : Option Nat :=
  match s.selectedExercise with
  | none => none
  | some i =>
    match exerciseByIndex cfg i with
    | none => none
    | some ex => if s.completedSets.getD i 0 < ex.setCount then some i else none

/-- `allExercisesComplete`: `exercises.every((ex, idx) => completedSets[idx] >= ex.setCount)`. -/
def allExercisesComplete (cfg : Config) (s : SessionState) : Bool :=
  cfg.exercises.enum.all fun p => decide (p.2.setCount ≤ s.completedSets.getD p.1 0)

/-- The `while (state.rankXp >= 100)` loop of `addRewards`: subtract 100,
bump the rank, emit a level-up toast naming the new rank. -/
def levelLoop (label : String) (xp rank : Int) : Int × Int × List String :=
  if h : 100 ≤ xp then
    let next := levelLoop label (xp - 100) (rank + 1)
    (next.1, next.2.1, ("Level up! Now " ++ label ++ " " ++ toString (rank + 1)) :: next.2.2)
  else
    (xp, rank, [])
termination_by xp.toNat
decreasing_by omega

/-- `addRewards(points, currency)`: add to sessionPoints/rankXp/currency, then
run the level-up loop. -/
def addRewards (cfg : Config) (s : SessionState) (points currency : Int) :
    SessionState × List String :=
  let s1 := { s with
    sessionPoints := s.sessionPoints + points
    rankXp := s.rankXp + points
    currency := s.currency + currency }
  let r := levelLoop cfg.rankLabel s1.rankXp s1.rank
  ({ s1 with rankXp := r.1, rank := r.2.1 }, r.2.2)

/-- `stopRestTimer`: clear the interval if one is registered. -/
def stopRestTimer (s : SessionState) : SessionState :=
  if s.restTimerId then { s with restTimerId := false } else s

/-- `beginRestTimer` (registration part): stop any prior interval, register a
new one.  The body of the registered callback is `restTimerTick` below. -/
def beginRestTimer (s : SessionState) : SessionState :=
  { stopRestTimer s with restTimerId := true }

/-- `notifyTimerDone`: the toast body; the desktop-notification side channel is
out of scope. -/
def notifyTimerDone (cfg : Config) (s : SessionState) : List String :=
  match s.selectedExercise with
  | some i =>
    match exerciseByIndex cfg i with
    | some ex => [ex.name ++ " rest complete"]
    | none => ["Rest complete"]
  | none => ["Rest complete"]

/-- `advanceAfterSet`: increment the completed-set counter (guarded so it never
passes `setCount`), clear the per-set flags, then route to Progress for the
next set, or grant the exercise-completion reward and route to
Circuit/Complete. -/
def advanceAfterSet (cfg : Config) (s : SessionState) : SessionState × List String :=
  match s.selectedExercise with
  | none => (s, [])
  | some idx =>
    match exerciseByIndex cfg idx with
    | none => (s, [])
    | some ex =>
      let s1 :=
        if s.completedSets.getD idx 0 < ex.setCount then
          { s with completedSets := s.completedSets.set idx (s.completedSets.getD idx 0 + 1) }
        else s
      let s2 := { s1 with restRemaining := 0, restTimerStarted := false, inputSubmitted := false }
      if ex.setCount ≤ s2.completedSets.getD idx 0 then
        let r := addRewards cfg s2 cfg.rewards.exercisePoints cfg.rewards.exerciseCurrency
        ({ r.1 with
            selectedExercise := none
            currentInput := ⟨"", ""⟩
            screen := if allExercisesComplete cfg r.1 then .complete else .circuit }, r.2)
      else
        ({ s2 with screen := .progress }, [])

/-- `onRestTimerFinished`: stop the interval, emit the completion notice, then
either advance (input already submitted) or route back to Input with a
reminder toast. -/
def onRestTimerFinished (cfg : Config) (s : SessionState) : SessionState × List String :=
  let s1 := stopRestTimer s
  let t1 := notifyTimerDone cfg s1
  if s1.inputSubmitted then
    let r := advanceAfterSet cfg s1
    (r.1, t1 ++ r.2)
  else
    ({ s1 with screen := .input }, t1 ++ ["Timer ended. Submit set data to continue."])

/-- The body of the interval registered by `beginRestTimer`: decrement while
positive, finishing when the countdown reaches zero (or immediately when it is
already zero). -/
def restTimerTick (cfg : Config) (s : SessionState) : SessionState × List String :=
  if 0 < s.restRemaining then
    let s1 := { s with restRemaining := s.restRemaining - 1 }
    if s1.restRemaining = 0 then onRestTimerFinished cfg s1 else (s1, [])
  else
    onRestTimerFinished cfg s

/-- `startWorkout`: stamp `startedAt` on first use, route to Circuit or
Complete.  `now` is the value `Date.now()` returns. -/
def startWorkout (cfg : Config) (s : SessionState) (now : Nat) : SessionState × List String :=
  let s1 :=
    match s.startedAt with
    | none => { s with startedAt := some now }
    | some _ => s
  ({ s1 with screen := if allExercisesComplete cfg s1 then .complete else .circuit }, [])

/-- The tail of `chooseExercise` after the lock guard: existence check,
already-complete check, then the selection itself.  Note that the selection
resets `restRemaining`/`restTimerStarted`/`inputSubmitted` but does not touch
`restTimerId` (the source never calls `stopRestTimer` here). -/
def chooseExerciseBody (cfg : Config) (s : SessionState) (index : Nat) :
    SessionState × List String :=
  match exerciseByIndex cfg index with
  | none => (s, [])
  | some ex =>
    if ex.setCount ≤ s.completedSets.getD index 0 then
      (s, [ex.name ++ " complete"])
    else
      ({ s with
          selectedExercise := some index
          restRemaining := 0
          restTimerStarted := false
          inputSubmitted := false
          currentInput := ⟨toString ex.targetReps, toString ex.defaultWeight⟩
          screen := .progress }, [])

/-- `chooseExercise(index)`: reject when a different exercise is locked,
otherwise run the selection body. -/
def chooseExercise (cfg : Config) (s : SessionState) (index : Nat) :
    SessionState × List String :=
  match lockedExerciseIndex cfg s with
  | some j =>
    if j ≠ index then
      (s, ["Finish " ++ (match exerciseByIndex cfg j with
                          | some ex => ex.name
                          | none => "") ++ " first"])
    else
      chooseExerciseBody cfg s index
  | none => chooseExerciseBody cfg s index

/-- `enterResultData`: reject without a selection; start the rest countdown if
it is not already running; route to Input.  When the timer is already started
the exercise record is never dereferenced, so the Input transition happens even
for an out-of-range selection. -/
def enterResultData (cfg : Config) (s : SessionState) : SessionState × List String :=
  match s.selectedExercise with
  | none => (s, ["Select an exercise first"])
  | some idx =>
    if s.restTimerStarted then
      ({ s with screen := .input }, [])
    else
      match exerciseByIndex cfg idx with
      | none => (s, [])
      | some ex =>
        ({ beginRestTimer
            { s with restRemaining := ex.restSeconds, restTimerStarted := true } with
            screen := .input }, [])

/-- The tail of `submitSet` after the entry is recorded and the timer ensured:
route to Rest while time remains, otherwise advance immediately. -/
def submitFinish (cfg : Config) (s : SessionState) (ts : List String) :
    SessionState × List String :=
  if 0 < s.restRemaining then
    ({ s with screen := .rest }, ts)
  else
    let r := advanceAfterSet cfg s
    (r.1, ts ++ r.2)

/-- `submitSet(form)`: `reps`/`weight` are the results of `Number(...)` on the
form fields (`none` = non-finite).  Silent no-op without a selection; rejection
toasts for a duplicate submission or invalid numbers; otherwise record the
entry (1-based set number, pre-increment), grant the per-set reward, mark the
set submitted, start the countdown if needed and finish. -/
def submitSet (cfg : Config) (s : SessionState) (reps weight : Option ℚ) (now : Nat) :
    SessionState × List String :=
  match s.selectedExercise with
  | none => (s, [])
  | some idx =>
    if s.inputSubmitted then (s, ["Set already submitted"]) else
    match reps with
    | none => (s, ["Enter valid rep count"])
    | some r =>
    if r ≤ 0 then (s, ["Enter valid rep count"]) else
    match weight with
    | none => (s, ["Enter valid weight"])
    | some w =>
    if w < 0 then (s, ["Enter valid weight"]) else
    match s.entries[idx]? with
    | none => (s, [])
    | some logs =>
      let s1 := { s with
        entries := s.entries.set idx
          (logs ++ [⟨s.completedSets.getD idx 0 + 1, r, w, now⟩]) }
      let r1 := addRewards cfg s1 cfg.rewards.setPoints cfg.rewards.setCurrency
      let s3 := { r1.1 with inputSubmitted := true }
      if s3.restTimerStarted then
        submitFinish cfg s3 r1.2
      else
        match exerciseByIndex cfg idx with
        | none => (s3, r1.2)
        | some ex =>
          submitFinish cfg
            (beginRestTimer
              { s3 with restRemaining := ex.restSeconds, restTimerStarted := true })
            r1.2

/-- `restartSession`: stop the interval and reset every field of the session
state to its construction-time value. -/
def restartSession (cfg : Config) (s : SessionState) : SessionState × List String :=
  let s1 := stopRestTimer s
  ({ s1 with
      screen := .main
      startedAt := none
      selectedExercise := none
      completedSets := List.replicate cfg.exercises.length 0
      entries := List.replicate cfg.exercises.length []
      currentInput := ⟨"", ""⟩
      restRemaining := 0
      restTimerStarted := false
      inputSubmitted := false
      sessionPoints := 0
      rank := cfg.initial.rank
      rankXp := cfg.initial.rankXp
      streak := cfg.initial.streak
      currency := cfg.initial.currency }, [])

/-- The events that drive the engine: the five user-triggered operations plus a
tick of the registered rest interval. -/
inductive Event where
  | start (now : Nat)
  | choose (index : Nat)
  | enterResult
  | submit (reps weight : Option ℚ) (now : Nat)
  | restart
  | tick
deriving DecidableEq, Repr

/-- One step of the engine.  A tick is only a real transition while an interval
is registered (`restTimerId`); with no interval there is no callback to run. -/
def step (cfg : Config) (s : SessionState) : Event → SessionState × List String
  | .start now => startWorkout cfg s now
  | .choose i => chooseExercise cfg s i
  | .enterResult => enterResultData cfg s
  | .submit r w now => submitSet cfg s r w now
  | .restart => restartSession cfg s
  | .tick => if s.restTimerId then restTimerTick cfg s else (s, [])

/-- States reachable from construction by any sequence of events. -/
inductive Reachable (cfg : Config) : SessionState → Prop where
  | init : Reachable cfg (initState cfg)
  | next : ∀ {s} (e : Event), Reachable cfg s → Reachable cfg (step cfg s e).1

/-- Run a list of events, discarding the emitted toasts. -/
def runEvents (cfg : Config) (s : SessionState) : List Event → SessionState
  | [] => s
  | e :: es => runEvents cfg (step cfg s e).1 es

theorem reachable_runEvents (cfg : Config) {s : SessionState} (h : Reachable cfg s) :
    ∀ es : List Event, Reachable cfg (runEvents cfg s es) := by
  intro es
  induction es generalizing s with
  | nil => exact h
  | cons e es ih => exact ih (Reachable.next e h)

/-- The single-exercise workout of the concrete scenario in the spec
(setCount 2, restSeconds 3, rewards 10/5 per set and 25/12 per exercise,
initial rank 3 and rank progress 45). -/
def testEx : Exercise :=
  { name := "Pulldown", targetReps := 10, setCount := 2, defaultWeight := 90, restSeconds := 3 }

/-- Concrete configuration used to instantiate theorems with hypotheses. -/
def testCfg : Config :=
  { exercises := [testEx], rewards := ⟨10, 5, 25, 12⟩, initial := ⟨3, 45, 7, 250⟩,
    rankLabel := "Level" }

/-- A malformed configuration: empty exercise list. -/
def emptyCfg : Config :=
  { exercises := [], rewards := ⟨10, 5, 25, 12⟩, initial := ⟨3, 45, 7, 250⟩,
    rankLabel := "Level" }

/-- State after `startWorkout(); chooseExercise(0)`: exercise 0 selected, no
set submitted, timer not started. -/
def selectedState : SessionState :=
  runEvents testCfg (initState testCfg) [.start 0, .choose 0]

/-- State after `startWorkout(); chooseExercise(0); enterResultData()`: the
rest countdown is running (interval registered, 3 seconds remaining). -/
def armedState : SessionState :=
  runEvents testCfg (initState testCfg) [.start 0, .choose 0, .enterResult]

/-- State after re-selecting exercise 0 while the rest countdown is running:
the per-set fields are reset but the interval is still registered. -/
def reselectedState : SessionState :=
  runEvents testCfg (initState testCfg) [.start 0, .choose 0, .enterResult, .choose 0]

/-- State after submitting a set (entry recorded, rest screen) and then
re-selecting exercise 0: the recorded entry survives while `inputSubmitted`
and `completedSets` are back to their pre-submission values. -/
def resubmittableState : SessionState :=
  runEvents testCfg (initState testCfg)
    [.start 0, .choose 0, .enterResult, .submit (some 10) (some 90) 0, .choose 0]

/-- The rational one half, built without division so that kernel evaluation
stays unstuck; used to exercise `submitSet` on a non-integer rep count. -/
def half : ℚ := ⟨1, 2, by decide, by decide⟩

/-- The inductive invariant of the session state: array lengths match the
configuration, the selection is in range, completed-set counters stay within
`setCount`, and each exercise has at least as many logged entries as completed
sets (one more while the current set is submitted but not yet advanced). -/
structure SessInv (cfg : Config) (s : SessionState) : Prop where
  hcs : s.completedSets.length = cfg.exercises.length
  hen : s.entries.length = cfg.exercises.length
  hsel : ∀ i, s.selectedExercise = some i → i < cfg.exercises.length
  hbound : ∀ i ex, cfg.exercises[i]? = some ex → s.completedSets.getD i 0 ≤ ex.setCount
  hlen : ∀ i, s.completedSets.getD i 0 +
      (if s.selectedExercise = some i ∧ s.inputSubmitted = true then 1 else 0) ≤
      (s.entries.getD i []).length

theorem list_getD_set_self {α : Type} (l : List α) (i : Nat) (v d : α)
    (h : i < l.length) : (l.set i v).getD i d = v := by
  rw [List.getD_eq_getElem?_getD, List.getElem?_set]
  simp [h]

theorem list_getD_set_ne {α : Type} (l : List α) (i j : Nat) (v d : α)
    (h : i ≠ j) : (l.set i v).getD j d = l.getD j d := by
  rw [List.getD_eq_getElem?_getD, List.getElem?_set, List.getD_eq_getElem?_getD]
  simp [h]

theorem list_getD_replicate {α : Type} (n i : Nat) (a d : α) (h : a = d) :
    (List.replicate n a).getD i d = d := by
  rw [List.getD_eq_getElem?_getD, List.getElem?_replicate]
  split <;> simp [h]

theorem list_getD_of_getElem? {α : Type} {l : List α} {i : Nat} {a : α} (d : α)
    (h : l[i]? = some a) : l.getD i d = a := by
  rw [List.getD_eq_getElem?_getD, h]
  rfl

theorem list_lt_length_of_getElem? {α : Type} {l : List α} {i : Nat} {a : α}
    (h : l[i]? = some a) : i < l.length :=
  (List.getElem?_eq_some.mp h).1

theorem levelLoop_spec (label : String) :
    ∀ (n : Nat) (xp rank : Int), xp.toNat ≤ n → 0 ≤ xp →
      (levelLoop label xp rank).1 = xp % 100 ∧
      (levelLoop label xp rank).2.1 = rank + xp / 100 := by
  intro n
  induction n with
  | zero =>
    intro xp rank hn h0
    rw [levelLoop]
    have hlt : ¬ (100 ≤ xp) := by omega
    simp only [hlt, dite_false]
    constructor <;> omega
  | succ n ih =>
    intro xp rank hn h0
    rw [levelLoop]
    by_cases hc : 100 ≤ xp
    · simp only [hc, dite_true]
      have h := ih (xp - 100) (rank + 1) (by omega) (by omega)
      refine ⟨h.1.trans (by omega), h.2.trans (by omega)⟩
    · simp only [hc, dite_false]
      constructor <;> omega

/-- C3: for every non-negative integer reward `p` and every starting
`rankXp` in `[0,100)`, `addRewards(p,c)` leaves `rankXp` at `(old + p) % 100`
and raises `rank` by `(old + p) / 100` (the floor, possibly crossing several
thresholds in one call); `rankXp` therefore stays in `[0,100)`. -/
theorem addRewards_progression (cfg : Config) (s : SessionState) (p c : Int)
    (hp : 0 ≤ p) (h0 : 0 ≤ s.rankXp) (h1 : s.rankXp < 100) :
    (addRewards cfg s p c).1.rankXp = (s.rankXp + p) % 100 ∧
    (addRewards cfg s p c).1.rank = s.rank + (s.rankXp + p) / 100 ∧
    0 ≤ (addRewards cfg s p c).1.rankXp ∧ (addRewards cfg s p c).1.rankXp < 100 := by
  have h := levelLoop_spec cfg.rankLabel (s.rankXp + p).toNat (s.rankXp + p) s.rank
    le_rfl (by omega)
  have e1 : (addRewards cfg s p c).1.rankXp =
      (levelLoop cfg.rankLabel (s.rankXp + p) s.rank).1 := rfl
  have e2 : (addRewards cfg s p c).1.rank =
      (levelLoop cfg.rankLabel (s.rankXp + p) s.rank).2.1 := rfl
  rw [e1, e2, h.1, h.2]
  refine ⟨rfl, rfl, ?_, ?_⟩ <;> omega

/-- Witness for C3 at a reward of 130 points on the configured start
(rank 3, rankXp 45): one call crosses a threshold. -/
theorem addRewards_progression_witness :
    (addRewards testCfg (initState testCfg) 130 7).1.rankXp =
      ((initState testCfg).rankXp + 130) % 100 ∧
    (addRewards testCfg (initState testCfg) 130 7).1.rank =
      (initState testCfg).rank + ((initState testCfg).rankXp + 130) / 100 ∧
    0 ≤ (addRewards testCfg (initState testCfg) 130 7).1.rankXp ∧
    (addRewards testCfg (initState testCfg) 130 7).1.rankXp < 100 :=
  addRewards_progression testCfg (initState testCfg) 130 7
    (by decide) (by decide) (by decide)

theorem restart_state_eq (cfg : Config) (s : SessionState) :
    (restartSession cfg s).1 = initState cfg := by
  unfold restartSession stopRestTimer initState
  split
  · rfl
  · next h => simp at h; simp [h]

/-- C5: from every reachable state, `restart()` leaves the session state equal
to the state immediately after construction with the same configuration, in
every field. -/
theorem restart_roundtrip (cfg : Config) (s : SessionState) (h : Reachable cfg s) :
    (restartSession cfg s).1 = initState cfg :=
  restart_state_eq cfg s

/-- Witness for C5: restarting from the state with the countdown running. -/
theorem restart_roundtrip_witness :
    (restartSession testCfg armedState).1 = initState testCfg :=
  restart_roundtrip testCfg armedState
    (reachable_runEvents testCfg Reachable.init [.start 0, .choose 0, .enterResult])

/-- C6: with an exercise selected, a second `enterResultData()` immediately
after the first changes nothing: it does not restart the already-running
countdown, emits no toast, and in particular leaves the remaining rest
seconds unchanged. -/
theorem enterResult_idempotent (cfg : Config) (s : SessionState) (i : Nat)
    (h : s.selectedExercise = some i) :
    enterResultData cfg (enterResultData cfg s).1 = ((enterResultData cfg s).1, []) ∧
    (enterResultData cfg (enterResultData cfg s).1).1.restRemaining =
      (enterResultData cfg s).1.restRemaining := by
  have hmain : enterResultData cfg (enterResultData cfg s).1 =
      ((enterResultData cfg s).1, []) := by
    by_cases ht : s.restTimerStarted
    · simp [enterResultData, h, ht]
    · cases hex : exerciseByIndex cfg i with
      | none => simp [enterResultData, h, ht, hex]
      | some ex =>
        by_cases hid : s.restTimerId <;>
          simp [enterResultData, h, ht, hex, hid, beginRestTimer, stopRestTimer]
  exact ⟨hmain, by rw [hmain]⟩

/-- Witness for C6 at the state with exercise 0 freshly selected. -/
theorem enterResult_idempotent_witness :
    enterResultData testCfg (enterResultData testCfg selectedState).1 =
      ((enterResultData testCfg selectedState).1, []) ∧
    (enterResultData testCfg (enterResultData testCfg selectedState).1).1.restRemaining =
      (enterResultData testCfg selectedState).1.restRemaining :=
  enterResult_idempotent testCfg selectedState 0 (by decide)

/-- C8 counterexample: with no exercise selected, `submitSet` returns without
emitting any user-facing notice (the source returns before any `showToast`),
refuting the claim that both premature actions emit a notice. -/
theorem premature_submit_silent_counterexample :
    (initState testCfg).selectedExercise = none ∧
    submitSet testCfg (initState testCfg) (some 10) (some 90) 0 = (initState testCfg, []) :=
  ⟨rfl, rfl⟩

/-- C8 (amended): with no exercise selected, `enterResultData()` is rejected
with a user-facing notice and `submitSet` is rejected silently; both leave the
session state unchanged. -/
theorem premature_actions_rejected (cfg : Config) (s : SessionState)
    (r w : Option ℚ) (t : Nat) (h : s.selectedExercise = none) :
    enterResultData cfg s = (s, ["Select an exercise first"]) ∧
    submitSet cfg s r w t = (s, []) := by
  constructor
  · simp [enterResultData, h]
  · simp [submitSet, h]

/-- Witness for the amended C8 at the freshly constructed state. -/
theorem premature_actions_rejected_witness :
    enterResultData testCfg (initState testCfg) =
      (initState testCfg, ["Select an exercise first"]) ∧
    submitSet testCfg (initState testCfg) (some 10) (some 90) 0 = (initState testCfg, []) :=
  premature_actions_rejected testCfg (initState testCfg) (some 10) (some 90) 0 rfl

/-- C4 counterexample: `submitSet` accepts the non-integer rep count 1/2 (its
guard is `Number.isFinite(reps) && reps > 0`, with no integrality check) and
records an entry for it, refuting the claim that an entry is recorded only
when reps is an integer greater than 0. -/
theorem submit_noninteger_reps_counterexample :
    (submitSet testCfg armedState (some half) (some 0) 0).1.entries =
      [[⟨1, half, 0, 0⟩]] ∧
    0 < half ∧ ¬ ∃ n : ℤ, half = (n : ℚ) := by
  refine ⟨by decide, by decide, ?_⟩
  rintro ⟨n, hn⟩
  have h1 : half.den = 1 := by rw [hn]; exact Rat.den_intCast n
  simp [half] at h1

/-- C4 (amended): `submitSet` records a set entry only when reps is a finite
number greater than 0 and weight is a finite number at least 0.  With an
exercise selected and the current set not already submitted, every call whose
reps or weight violates this guard is rejected with a user-facing notice, the
session state is unchanged, and no reward is granted. -/
theorem submit_invalid_input_rejected (cfg : Config) (s : SessionState) (i : Nat)
    (r w : Option ℚ) (t : Nat) (hsel : s.selectedExercise = some i)
    (hsub : s.inputSubmitted = false)
    (hbad : (∀ x, r = some x → x ≤ 0) ∨ (∀ y, w = some y → y < 0)) :
    (submitSet cfg s r w t).1 = s ∧ (submitSet cfg s r w t).2 ≠ [] := by
  cases r with
  | none => simp [submitSet, hsel, hsub]
  | some x =>
    by_cases hx : x ≤ 0
    · simp [submitSet, hsel, hsub, hx]
    · have hw : ∀ y, w = some y → y < 0 := by
        rcases hbad with hb | hb
        · exact absurd (hb x rfl) hx
        · exact hb
      cases w with
      | none => simp [submitSet, hsel, hsub, hx]
      | some y =>
        have hy : y < 0 := hw y rfl
        simp [submitSet, hsel, hsub, hx, hy]

/-- Witness for the amended C4: a non-positive rep count is rejected from the
state with the countdown running. -/
theorem submit_invalid_input_rejected_witness :
    (submitSet testCfg armedState (some (-1)) (some 0) 0).1 = armedState ∧
    (submitSet testCfg armedState (some (-1)) (some 0) 0).2 ≠ [] :=
  submit_invalid_input_rejected testCfg armedState 0 (some (-1)) (some 0) 0
    (by decide) (by decide)
    (Or.inl fun x hx => by injection hx with h; rw [← h]; decide)

theorem addRewards_completedSets (cfg : Config) (s : SessionState) (p c : Int) :
    (addRewards cfg s p c).1.completedSets = s.completedSets := rfl

theorem addRewards_entries (cfg : Config) (s : SessionState) (p c : Int) :
    (addRewards cfg s p c).1.entries = s.entries := rfl

theorem addRewards_selectedExercise (cfg : Config) (s : SessionState) (p c : Int) :
    (addRewards cfg s p c).1.selectedExercise = s.selectedExercise := rfl

theorem addRewards_inputSubmitted (cfg : Config) (s : SessionState) (p c : Int) :
    (addRewards cfg s p c).1.inputSubmitted = s.inputSubmitted := rfl

theorem addRewards_restTimerStarted (cfg : Config) (s : SessionState) (p c : Int) :
    (addRewards cfg s p c).1.restTimerStarted = s.restTimerStarted := rfl

theorem addRewards_restRemaining (cfg : Config) (s : SessionState) (p c : Int) :
    (addRewards cfg s p c).1.restRemaining = s.restRemaining := rfl

theorem stopRestTimer_completedSets (s : SessionState) :
    (stopRestTimer s).completedSets = s.completedSets := by
  unfold stopRestTimer; split <;> rfl

theorem stopRestTimer_entries (s : SessionState) :
    (stopRestTimer s).entries = s.entries := by
  unfold stopRestTimer; split <;> rfl

theorem stopRestTimer_selectedExercise (s : SessionState) :
    (stopRestTimer s).selectedExercise = s.selectedExercise := by
  unfold stopRestTimer; split <;> rfl

theorem stopRestTimer_inputSubmitted (s : SessionState) :
    (stopRestTimer s).inputSubmitted = s.inputSubmitted := by
  unfold stopRestTimer; split <;> rfl

theorem beginRestTimer_completedSets (s : SessionState) :
    (beginRestTimer s).completedSets = s.completedSets :=
  stopRestTimer_completedSets s

theorem beginRestTimer_entries (s : SessionState) :
    (beginRestTimer s).entries = s.entries :=
  stopRestTimer_entries s

theorem beginRestTimer_selectedExercise (s : SessionState) :
    (beginRestTimer s).selectedExercise = s.selectedExercise :=
  stopRestTimer_selectedExercise s

theorem beginRestTimer_inputSubmitted (s : SessionState) :
    (beginRestTimer s).inputSubmitted = s.inputSubmitted :=
  stopRestTimer_inputSubmitted s

theorem sessinv_fields {cfg : Config} {s s' : SessionState} (h : SessInv cfg s)
    (h1 : s'.completedSets = s.completedSets) (h2 : s'.entries = s.entries)
    (h3 : s'.selectedExercise = s.selectedExercise)
    (h4 : s'.inputSubmitted = s.inputSubmitted) : SessInv cfg s' := by
  constructor
  · rw [h1]; exact h.hcs
  · rw [h2]; exact h.hen
  · rw [h3]; exact h.hsel
  · rw [h1]; exact h.hbound
  · rw [h1, h2, h3, h4]; exact h.hlen

theorem sessinv_init (cfg : Config) : SessInv cfg (initState cfg) := by
  constructor
  · simp [initState]
  · simp [initState]
  · intro i hi; simp [initState] at hi
  · intro i ex hex
    show (List.replicate cfg.exercises.length 0).getD i 0 ≤ ex.setCount
    rw [list_getD_replicate _ _ _ _ rfl]
    exact Nat.zero_le _
  · intro i
    show (List.replicate cfg.exercises.length 0).getD i 0 + _ ≤
      ((List.replicate cfg.exercises.length ([] : List SetEntry)).getD i []).length
    rw [list_getD_replicate _ _ _ _ rfl, list_getD_replicate _ _ _ _ rfl]
    simp [initState]

theorem sessinv_advanceAfterSet {cfg : Config} {s : SessionState} (h : SessInv cfg s)
    (hsub : s.inputSubmitted = true) : SessInv cfg (advanceAfterSet cfg s).1 := by
  unfold advanceAfterSet
  cases hse : s.selectedExercise with
  | none => exact h
  | some idx =>
    simp only [hse]
    cases hex : exerciseByIndex cfg idx with
    | none => simp only [hex]; exact h
    | some ex =>
      simp only [hex]
      have hidx : idx < cfg.exercises.length := h.hsel idx hse
      have hidxc : idx < s.completedSets.length := by rw [h.hcs]; exact hidx
      have hgetex : cfg.exercises[idx]? = some ex := hex
      have hflag := h.hlen idx
      rw [hse, hsub, if_pos ⟨rfl, rfl⟩] at hflag
      by_cases hlt : s.completedSets.getD idx 0 < ex.setCount
      · simp only [hlt, if_true]
        have hsetval : (s.completedSets.set idx (s.completedSets.getD idx 0 + 1)).getD idx 0
            = s.completedSets.getD idx 0 + 1 := list_getD_set_self _ _ _ _ hidxc
        by_cases hge : ex.setCount ≤ (s.completedSets.set idx (s.completedSets.getD idx 0 + 1)).getD idx 0
        · simp only [hge, if_true]
          constructor
          · simp only [addRewards_completedSets]
            rw [List.length_set]; exact h.hcs
          · simp only [addRewards_entries]
            exact h.hen
          · intro i hi
            simp at hi
          · intro i ex' hex'
            simp only [addRewards_completedSets]
            by_cases hii : idx = i
            · subst hii
              rw [hgetex] at hex'
              injection hex' with he
              subst he
              rw [hsetval]
              omega
            · rw [list_getD_set_ne _ _ _ _ _ hii]
              exact h.hbound i ex' hex'
          · intro i
            simp only [addRewards_completedSets, addRewards_entries]
            rw [if_neg (by simp)]
            by_cases hii : idx = i
            · subst hii
              rw [hsetval]
              omega
            · rw [list_getD_set_ne _ _ _ _ _ hii]
              exact le_trans (Nat.le_add_right _ _) (h.hlen i)
        · simp only [hge, if_false]
          constructor
          · rw [List.length_set]; exact h.hcs
          · exact h.hen
          · intro i hi
            simp only at hi
            rw [← hse] at hi
            exact h.hsel i hi
          · intro i ex' hex'
            by_cases hii : idx = i
            · subst hii
              rw [hgetex] at hex'
              injection hex' with he
              subst he
              rw [hsetval]
              omega
            · rw [list_getD_set_ne _ _ _ _ _ hii]
              exact h.hbound i ex' hex'
          · intro i
            rw [if_neg (by simp)]
            by_cases hii : idx = i
            · subst hii
              rw [hsetval]
              simpa using hflag
            · rw [list_getD_set_ne _ _ _ _ _ hii]
              exact le_trans (Nat.le_add_right _ _) (h.hlen i)
      · simp only [hlt, if_false]
        have hge : ex.setCount ≤ s.completedSets.getD idx 0 := by omega
        simp only [hge, if_true]
        constructor
        · simp only [addRewards_completedSets]
          exact h.hcs
        · simp only [addRewards_entries]
          exact h.hen
        · intro i hi
          simp at hi
        · intro i ex' hex'
          simp only [addRewards_completedSets]
          exact h.hbound i ex' hex'
        · intro i
          simp only [addRewards_completedSets, addRewards_entries]
          rw [if_neg (by simp)]
          exact le_trans (Nat.le_add_right _ _) (h.hlen i)

theorem sessinv_onRestTimerFinished {cfg : Config} {s : SessionState} (h : SessInv cfg s) :
    SessInv cfg (onRestTimerFinished cfg s).1 := by
  unfold onRestTimerFinished
  have h1 : SessInv cfg (stopRestTimer s) :=
    sessinv_fields h (stopRestTimer_completedSets s) (stopRestTimer_entries s)
      (stopRestTimer_selectedExercise s) (stopRestTimer_inputSubmitted s)
  by_cases hsub : (stopRestTimer s).inputSubmitted = true
  · rw [if_pos hsub]
    exact sessinv_advanceAfterSet h1 hsub
  · rw [if_neg hsub]
    exact sessinv_fields h1 rfl rfl rfl rfl

theorem sessinv_restTimerTick {cfg : Config} {s : SessionState} (h : SessInv cfg s) :
    SessInv cfg (restTimerTick cfg s).1 := by
  unfold restTimerTick
  by_cases hr : 0 < s.restRemaining
  · rw [if_pos hr]
    by_cases hz : s.restRemaining - 1 = 0
    · rw [if_pos hz]
      exact sessinv_onRestTimerFinished (sessinv_fields h rfl rfl rfl rfl)
    · rw [if_neg hz]
      exact sessinv_fields h rfl rfl rfl rfl
  · rw [if_neg hr]
    exact sessinv_onRestTimerFinished h

theorem sessinv_startWorkout {cfg : Config} {s : SessionState} (h : SessInv cfg s)
    (now : Nat) : SessInv cfg (startWorkout cfg s now).1 := by
  unfold startWorkout
  cases hst : s.startedAt with
  | none => exact sessinv_fields h rfl rfl rfl rfl
  | some t => exact sessinv_fields h rfl rfl rfl rfl

theorem sessinv_chooseExerciseBody {cfg : Config} {s : SessionState} (h : SessInv cfg s)
    (index : Nat) : SessInv cfg (chooseExerciseBody cfg s index).1 := by
  unfold chooseExerciseBody
  cases hex : exerciseByIndex cfg index with
  | none => exact h
  | some ex =>
    simp only [hex]
    by_cases hc : ex.setCount ≤ s.completedSets.getD index 0
    · rw [if_pos hc]; exact h
    · rw [if_neg hc]
      have hidx : index < cfg.exercises.length := list_lt_length_of_getElem? hex
      constructor
      · exact h.hcs
      · exact h.hen
      · intro i hi
        have hi' : some index = some i := hi
        injection hi' with he
        exact he ▸ hidx
      · exact h.hbound
      · intro i
        rw [if_neg (by simp)]
        exact le_trans (Nat.le_add_right _ _) (h.hlen i)

theorem sessinv_chooseExercise {cfg : Config} {s : SessionState} (h : SessInv cfg s)
    (index : Nat) : SessInv cfg (chooseExercise cfg s index).1 := by
  unfold chooseExercise
  cases hl : lockedExerciseIndex cfg s with
  | none => exact sessinv_chooseExerciseBody h index
  | some j =>
    simp only [hl]
    by_cases hj : j ≠ index
    · rw [if_pos hj]; exact h
    · rw [if_neg hj]; exact sessinv_chooseExerciseBody h index

theorem sessinv_enterResultData {cfg : Config} {s : SessionState} (h : SessInv cfg s) :
    SessInv cfg (enterResultData cfg s).1 := by
  unfold enterResultData
  cases hse : s.selectedExercise with
  | none => exact h
  | some idx =>
    simp only [hse]
    by_cases ht : s.restTimerStarted = true
    · rw [if_pos ht]
      exact sessinv_fields h rfl rfl hse.symm rfl
    · rw [if_neg ht]
      cases hex : exerciseByIndex cfg idx with
      | none => exact h
      | some ex =>
        simp only [hex]
        exact sessinv_fields h (beginRestTimer_completedSets _) (beginRestTimer_entries _)
          ((beginRestTimer_selectedExercise _).trans hse.symm) (beginRestTimer_inputSubmitted _)

theorem sessinv_restartSession {cfg : Config} (s : SessionState) :
    SessInv cfg (restartSession cfg s).1 := by
  rw [restart_state_eq]
  exact sessinv_init cfg

theorem sessinv_submitFinish {cfg : Config} {s : SessionState} (h : SessInv cfg s)
    (hsub : s.inputSubmitted = true) (ts : List String) :
    SessInv cfg (submitFinish cfg s ts).1 := by
  unfold submitFinish
  by_cases hr : 0 < s.restRemaining
  · rw [if_pos hr]
    exact sessinv_fields h rfl rfl rfl rfl
  · rw [if_neg hr]
    exact sessinv_advanceAfterSet h hsub

theorem sessinv_submitSet {cfg : Config} {s : SessionState} (h : SessInv cfg s)
    (r w : Option ℚ) (t : Nat) : SessInv cfg (submitSet cfg s r w t).1 := by
  unfold submitSet
  cases hse : s.selectedExercise with
  | none => exact h
  | some idx =>
    simp only [hse]
    by_cases hsub : s.inputSubmitted = true
    · rw [if_pos hsub]; exact h
    · rw [if_neg hsub]
      have hsub' : s.inputSubmitted = false := by
        revert hsub; cases s.inputSubmitted <;> simp
      cases r with
      | none => exact h
      | some x =>
        simp only []
        by_cases hx : x ≤ 0
        · rw [if_pos hx]; exact h
        · rw [if_neg hx]
          cases w with
          | none => exact h
          | some y =>
            simp only []
            by_cases hy : y < 0
            · rw [if_pos hy]; exact h
            · rw [if_neg hy]
              cases hel : s.entries[idx]? with
              | none => exact h
              | some logs =>
                simp only [hel]
                have hidx : idx < cfg.exercises.length := h.hsel idx hse
                have hilen : idx < s.entries.length := list_lt_length_of_getElem? hel
                have hloglen : s.entries.getD idx [] = logs := list_getD_of_getElem? [] hel
                have key : ∀ s3 : SessionState,
                    s3.completedSets = s.completedSets →
                    s3.entries = s.entries.set idx
                      (logs ++ [⟨s.completedSets.getD idx 0 + 1, x, y, t⟩]) →
                    s3.selectedExercise = some idx →
                    s3.inputSubmitted = true →
                    SessInv cfg s3 := by
                  intro s3 e1 e2 e3 e4
                  constructor
                  · rw [e1]; exact h.hcs
                  · rw [e2, List.length_set]; exact h.hen
                  · intro i hi
                    rw [e3] at hi
                    injection hi with he
                    exact he ▸ hidx
                  · intro i ex' hex'
                    rw [e1]; exact h.hbound i ex' hex'
                  · intro i
                    rw [e1, e2, e3, e4]
                    by_cases hii : idx = i
                    · subst hii
                      rw [if_pos ⟨rfl, rfl⟩, list_getD_set_self _ _ _ _ hilen]
                      have hh := h.hlen idx
                      rw [hse, hsub'] at hh
                      rw [if_neg (by simp)] at hh
                      rw [hloglen] at hh
                      simp only [List.length_append, List.length_cons, List.length_nil]
                      omega
                    · rw [if_neg (by simp [hii]), list_getD_set_ne _ _ _ _ _ hii]
                      exact le_trans (Nat.le_add_right _ _) (h.hlen i)
                split
                · apply sessinv_submitFinish
                  · apply key
                    · rfl
                    · rfl
                    · rfl
                    · rfl
                  · rfl
                · cases hex : exerciseByIndex cfg idx with
                  | none =>
                    apply key
                    · rfl
                    · rfl
                    · rfl
                    · rfl
                  | some ex =>
                    simp only [hex]
                    apply sessinv_submitFinish
                    · apply key
                      · exact beginRestTimer_completedSets _
                      · exact beginRestTimer_entries _
                      · exact beginRestTimer_selectedExercise _
                      · exact beginRestTimer_inputSubmitted _
                    · exact beginRestTimer_inputSubmitted _

theorem sessinv_step {cfg : Config} {s : SessionState} (h : SessInv cfg s) (e : Event) :
    SessInv cfg (step cfg s e).1 := by
  cases e with
  | start now => exact sessinv_startWorkout h now
  | choose i => exact sessinv_chooseExercise h i
  | enterResult => exact sessinv_enterResultData h
  | submit r w now => exact sessinv_submitSet h r w now
  | restart => exact sessinv_restartSession s
  | tick =>
    show SessInv cfg (if s.restTimerId then restTimerTick cfg s else (s, [])).1
    by_cases hid : s.restTimerId = true
    · rw [if_pos hid]
      exact sessinv_restTimerTick h
    · rw [if_neg hid]
      exact h

theorem reachable_sessinv {cfg : Config} {s : SessionState} (h : Reachable cfg s) :
    SessInv cfg s := by
  induction h with
  | init => exact sessinv_init cfg
  | next e _ ih => exact sessinv_step ih e

/-- C1: in every reachable session state, the completed-set counter of every
exercise is at most that exercise's `setCount`; `advanceAfterSet`, the only
operation that increments `completedSets`, never pushes it past `setCount`. -/
theorem completedSets_le_setCount (cfg : Config) (s : SessionState)
    (h : Reachable cfg s) :
    ∀ (i : Nat) (ex : Exercise), cfg.exercises[i]? = some ex →
      s.completedSets.getD i 0 ≤ ex.setCount :=
  (reachable_sessinv h).hbound

/-- Witness for C1: the bound at exercise 0 of the state with one set
submitted and re-selected. -/
theorem completedSets_le_setCount_witness :
    resubmittableState.completedSets.getD 0 0 ≤ testEx.setCount :=
  completedSets_le_setCount testCfg resubmittableState
    (reachable_runEvents testCfg Reachable.init
      [.start 0, .choose 0, .enterResult, .submit (some 10) (some 90) 0, .choose 0])
    0 testEx rfl

/-- C10 counterexample: re-selecting the locked exercise after submitting a set
(but before the rest timer advances it) resets `inputSubmitted` without
discarding the recorded entry, reaching a state where exercise 0 is the
selection, `inputSubmitted` is false, and `entries[0].length = 1` while
`completedSets[0] = 0` — so the claimed equality `entries[i].length =
completedSets[i]` outside a submitted set fails on a reachable state. -/
theorem entries_length_mismatch_counterexample :
    Reachable testCfg resubmittableState ∧
    resubmittableState.selectedExercise = some 0 ∧
    resubmittableState.inputSubmitted = false ∧
    (resubmittableState.entries.getD 0 []).length = 1 ∧
    resubmittableState.completedSets.getD 0 0 = 0 :=
  ⟨reachable_runEvents testCfg Reachable.init
      [.start 0, .choose 0, .enterResult, .submit (some 10) (some 90) 0, .choose 0],
    by decide, by decide, by decide, by decide⟩

/-- C10 (amended): in every reachable state, `entries[i].length` is at least
`completedSets[i]`, and at least `completedSets[i] + 1` when exercise `i` is
the current selection with `inputSubmitted` true.  Equality (and the bound by
`setCount`) can fail, because re-selecting the locked exercise mid-set resets
`inputSubmitted` while keeping the recorded entry. -/
theorem entries_length_ge (cfg : Config) (s : SessionState) (h : Reachable cfg s) :
    ∀ i : Nat, s.completedSets.getD i 0 +
        (if s.selectedExercise = some i ∧ s.inputSubmitted = true then 1 else 0) ≤
      (s.entries.getD i []).length :=
  (reachable_sessinv h).hlen

/-- Witness for the amended C10 at the re-selected state. -/
theorem entries_length_ge_witness :
    resubmittableState.completedSets.getD 0 0 +
        (if resubmittableState.selectedExercise = some 0 ∧
            resubmittableState.inputSubmitted = true then 1 else 0) ≤
      (resubmittableState.entries.getD 0 []).length :=
  entries_length_ge testCfg resubmittableState
    (reachable_runEvents testCfg Reachable.init
      [.start 0, .choose 0, .enterResult, .submit (some 10) (some 90) 0, .choose 0])
    0

/-- C2 (evaluation of the code at the failing input): from the state with the
rest countdown running on exercise 0, re-selecting exercise 0 succeeds (the
same-index re-selection passes the lock guard and resets the per-set fields),
yet the previously registered interval is still there (`chooseExercise` never
calls `stopRestTimer`), and its next tick fires `onRestTimerFinished` against
the reset state, flipping the Progress screen to Input and emitting toasts. -/
theorem reselect_leaves_timer_running :
    armedState.restTimerId = true ∧
    reselectedState.selectedExercise = some 0 ∧
    reselectedState.screen = Screen.progress ∧
    reselectedState.restTimerId = true ∧
    (step testCfg reselectedState Event.tick).1.screen = Screen.input ∧
    (step testCfg reselectedState Event.tick).2 ≠ [] :=
  ⟨by decide, by decide, by decide, by decide, by decide, by decide⟩

theorem advanceAfterSet_entries (cfg : Config) (s : SessionState) :
    (advanceAfterSet cfg s).1.entries = s.entries := by
  unfold advanceAfterSet
  cases hse : s.selectedExercise with
  | none => rfl
  | some idx =>
    simp only [hse]
    cases hex : exerciseByIndex cfg idx with
    | none => rfl
    | some ex =>
      simp only [hex]
      by_cases hlt : s.completedSets.getD idx 0 < ex.setCount
      · simp only [hlt, if_true]
        split
        · simp only [addRewards_entries]
        · rfl
      · simp only [hlt, if_false]
        split
        · simp only [addRewards_entries]
        · rfl

/-- C7: with an exercise selected, a second submission for the same set
(`inputSubmitted` true) is rejected with a notice and appends nothing, so an
accepted call records exactly one entry, and that entry's set number is
`completedSets[i] + 1` — 1-based, read before any increment. -/
theorem submitSet_once_per_set (cfg : Config) (s : SessionState) (i : Nat)
    (x y : ℚ) (t : Nat) (logs : List SetEntry)
    (hsel : s.selectedExercise = some i) :
    (s.inputSubmitted = true →
      submitSet cfg s (some x) (some y) t = (s, ["Set already submitted"])) ∧
    (s.inputSubmitted = false → 0 < x → 0 ≤ y → s.entries[i]? = some logs →
      (submitSet cfg s (some x) (some y) t).1.entries =
        s.entries.set i (logs ++ [⟨s.completedSets.getD i 0 + 1, x, y, t⟩])) := by
  constructor
  · intro hsub
    unfold submitSet
    simp only [hsel]
    rw [if_pos hsub]
  · intro hsub hx hy hel
    have hx' : ¬ x ≤ 0 := by exact not_le.mpr hx
    have hy' : ¬ y < 0 := by exact not_lt.mpr hy
    have hsub' : ¬ s.inputSubmitted = true := by simp [hsub]
    unfold submitSet
    simp only [hsel]
    rw [if_neg hsub']
    rw [if_neg hx']
    rw [if_neg hy']
    simp only [hel]
    split
    · unfold submitFinish
      split
      · rfl
      · rw [advanceAfterSet_entries]
        simp only [addRewards_entries]
    · cases hex : exerciseByIndex cfg i with
      | none => rfl
      | some ex =>
        simp only [hex]
        unfold submitFinish
        split
        · simp only [beginRestTimer_entries, addRewards_entries]
        · rw [advanceAfterSet_entries]
          simp only [beginRestTimer_entries, addRewards_entries]

/-- Witness for C7: submitting 10 reps at 90 from the state with the countdown
running records the single entry with set number `completedSets[0] + 1 = 1`. -/
theorem submitSet_once_per_set_witness :
    (submitSet testCfg armedState (some 10) (some 90) 0).1.entries =
      armedState.entries.set 0
        ([] ++ [⟨armedState.completedSets.getD 0 0 + 1, 10, 90, 0⟩]) :=
  (submitSet_once_per_set testCfg armedState 0 10 90 0 [] (by decide)).2
    (by decide) (by norm_num) (by norm_num) (by decide)

/-- C9 counterexample: the engine performs no construction-time validation.
With an empty exercise list the construction succeeds (all per-exercise arrays
are empty), `allExercisesComplete` holds vacuously, and the very first
operation `startWorkout()` runs inside the state machine and routes straight
to the Complete screen — the configuration is accepted and surfaces at
runtime, not rejected at construction. -/
theorem empty_workout_accepted_counterexample :
    (initState emptyCfg).completedSets = [] ∧
    (initState emptyCfg).entries = [] ∧
    allExercisesComplete emptyCfg (initState emptyCfg) = true ∧
    (startWorkout emptyCfg (initState emptyCfg) 0).1.screen = Screen.complete :=
  ⟨rfl, rfl, by decide, by decide⟩

/-- C9 (amended): a configuration with an empty exercise list is accepted by
construction without any validation failure; every exercise is then vacuously
complete and `startWorkout()` routes the fresh session directly to the
Complete screen at runtime. -/
theorem empty_workout_routes_to_complete (cfg : Config) (now : Nat)
    (hemp : cfg.exercises = []) :
    allExercisesComplete cfg (initState cfg) = true ∧
    (startWorkout cfg (initState cfg) now).1.screen = Screen.complete := by
  constructor
  · simp [allExercisesComplete, hemp]
  · simp [startWorkout, initState, allExercisesComplete, hemp]

/-- Witness for the amended C9 at the concrete empty configuration. -/
theorem empty_workout_routes_to_complete_witness :
    allExercisesComplete emptyCfg (initState emptyCfg) = true ∧
    (startWorkout emptyCfg (initState emptyCfg) 0).1.screen = Screen.complete :=
  empty_workout_routes_to_complete emptyCfg 0 rfl
